import Mathlib

/-!
# Channel-access simulators (wifi4.cpp, wifi5.cpp, wifi6.cpp)

Shallow embedding of the three simulators of the repository and of their
metrics routine.

Modelling conventions.
* `int` parameters are `Int`; container sizes and loop counters that are
  never negative are `Nat`.
* `queue<Packet>` is a `List Packet` whose head is `front()`; `pop()` drops the
  head.
* The wall clock read by `getCurrentTime()` is a field of the simulator state
  counting elapsed time; `this_thread::sleep_for` advances it by the slept
  duration.
* `while (true)` loops take a fuel argument and return `none` when the fuel
  runs out before the loop's `break`.
* `double` arithmetic is carried out over `ℚ`.
-/

namespace Wifi4

/-- wifi4.cpp:14 -/
def PACKET_SIZE : Int := 1024
/-- wifi4.cpp:15 -/
def BANDWIDTH : Int := 20
/-- wifi4.cpp:16 -/
def MODULATION_RATE : ℚ := 256
/-- wifi4.cpp:17 -/
def CODING_RATE : ℚ := 5 / 6
/-- wifi4.cpp:18 -/
def MAX_BACKOFF_TIME : Int := 50

/-- wifi4.cpp:21-26. The generator is an oracle `draws`: the `k`-th call
returns a value of `[1, max_backoff]` determined by `draws k`. -/
def random_backoff (draws : Nat → Nat) (k : Nat) (max_backoff : Int) : Nat :=
  1 + draws k % max_backoff.toNat

/-- wifi4.cpp:29-47 -/
structure AccessPoint where
  id : Int
  is_channel_free : Bool
  deriving DecidableEq, Repr

/-- wifi4.cpp:34 -/
def AccessPoint.init (id : Int) : AccessPoint := { id := id, is_channel_free := true }

/-- wifi4.cpp:36-38 -/
def AccessPoint.checkChannel (ap : AccessPoint) : Bool := ap.is_channel_free

/-- wifi4.cpp:40-42 -/
def AccessPoint.occupyChannel (ap : AccessPoint) : AccessPoint :=
  { ap with is_channel_free := false }

/-- wifi4.cpp:44-46 -/
def AccessPoint.releaseChannel (ap : AccessPoint) : AccessPoint :=
  { ap with is_channel_free := true }

/-- wifi4.cpp:50-58; times are clock readings in milliseconds. -/
structure Packet where
  id : Int
  size : Int
  start_time : Nat
  end_time : Nat
  deriving DecidableEq, Repr

/-- wifi4.cpp:57 -/
def Packet.init (id : Int) (size : Int) : Packet :=
  { id := id, size := size, start_time := 0, end_time := 0 }

/-- wifi4.cpp:61-75 -/
structure User where
  id : Int
  packets : List Packet
  deriving DecidableEq, Repr

/-- wifi4.cpp:66-70: `for (int i = 0; i < num_packets; ++i) packets.push(...)`. -/
def User.init (id : Int) (num_packets : Int) : User :=
  { id := id
    packets := (List.range num_packets.toNat).map (fun i : Nat => Packet.init (i : Int) PACKET_SIZE) }

/-- wifi4.cpp:72-74 -/
def User.hasPackets (u : User) : Bool := !u.packets.isEmpty

/-- wifi4.cpp:78-84, together with the clock and two observers that the
source does not store: `backoff_calls` counts the calls of `random_backoff`,
`checks` lists the value returned by every `checkChannel` call in order. -/
structure Wifi4Simulator where
  ap : AccessPoint
  users : List User
  max_backoff : Int
  total_time : Nat
  latencies : List Nat
  clock : Nat
  backoff_calls : Nat
  checks : List Bool
  deriving DecidableEq, Repr

/-- wifi4.cpp:87-92: `for (int i = 0; i < num_users; ++i) users.emplace_back(i, ...)`. -/
def Wifi4Simulator.init (num_users : Int) (max_backoff_time : Int) (num_packets_per_user : Int) :
    Wifi4Simulator :=
  { ap := AccessPoint.init 0
    users := (List.range num_users.toNat).map (fun i : Nat => User.init (i : Int) num_packets_per_user)
    max_backoff := max_backoff_time
    total_time := 0
    latencies := []
    clock := 0
    backoff_calls := 0
    checks := [] }

/-- wifi4.cpp:112, in seconds. -/
def transmission_time : ℚ :=
  (((PACKET_SIZE * 8 : Int) : ℚ) / ((BANDWIDTH : ℚ) * 1000000 * MODULATION_RATE * CODING_RATE)) * 2

/-- wifi4.cpp:113: `static_cast<int>(transmission_time * 1000)` milliseconds. -/
def transmission_ms : Nat := (Rat.floor (transmission_time * 1000)).toNat

/-- wifi4.cpp:103-128: the body of the `for (auto& user : users)` loop for one
user. `done` is `all_users_done`. -/
def userStep (draws : Nat → Nat) (st : Wifi4Simulator) (done : Bool) (user : User) :
    Wifi4Simulator × Bool × User :=
  if user.hasPackets then
    let st := { st with checks := st.checks ++ [st.ap.checkChannel] }
    if st.ap.checkChannel then
      match user.packets with
      | [] => (st, false, user)
      | packet :: rest =>
        let packet := { packet with start_time := st.clock }
        let st := { st with ap := st.ap.occupyChannel }
        let st := { st with clock := st.clock + transmission_ms }
        let st := { st with clock := st.clock + 1 }
        let packet := { packet with end_time := st.clock }
        let st := { st with latencies := st.latencies ++ [packet.end_time - packet.start_time] }
        let user := { user with packets := rest }
        let st := { st with ap := st.ap.releaseChannel }
        (st, false, user)
    else
      let backoff_time := random_backoff draws st.backoff_calls st.max_backoff
      let st := { st with backoff_calls := st.backoff_calls + 1 }
      let st := { st with clock := st.clock + backoff_time }
      (st, false, user)
  else
    (st, done, user)

/-- wifi4.cpp:102-129: the `for (auto& user : users)` loop. -/
def forUsers (draws : Nat → Nat) (st : Wifi4Simulator) (done : Bool) :
    List User → Wifi4Simulator × Bool × List User
  | [] => (st, done, [])
  | user :: rest =>
    let r := userStep draws st done user
    let q := forUsers draws r.1 r.2.1 rest
    (q.1, q.2.1, r.2.2 :: q.2.2)

/-- wifi4.cpp:100-129: one iteration of the `while (true)` body up to the
`if (all_users_done)` test; returns the new state and `all_users_done`. -/
def round (draws : Nat → Nat) (st : Wifi4Simulator) : Wifi4Simulator × Bool :=
  let r := forUsers draws st true st.users
  ({ r.1 with users := r.2.2 }, r.2.1)

/-- wifi4.cpp:99-134: the `while (true)` loop. -/
def simLoop (draws : Nat → Nat) : Nat → Wifi4Simulator → Option Wifi4Simulator
  | 0, _ => none
  | fuel + 1, st =>
    let r := round draws st
    if r.2 then some r.1 else simLoop draws fuel r.1

/-- wifi4.cpp:94-139 -/
def simulate (draws : Nat → Nat) (fuel : Nat) (st : Wifi4Simulator) : Option Wifi4Simulator :=
  let start_simulation := st.clock
  match simLoop draws fuel st with
  | none => none
  | some st => some { st with total_time := st.clock - start_simulation }

/-- The effect of `user.packets.pop()` on a user; an empty queue is left as it is. -/
def popFront (u : User) : User := { u with packets := u.packets.tail }

/-- Number of packets still queued over all users. -/
def pending (us : List User) : Nat := (us.map (fun u => u.packets.length)).sum

/-- The state after `k` iterations of the body of the `while (true)` loop. -/
def rounds (draws : Nat → Nat) : Nat → Wifi4Simulator → Wifi4Simulator
  | 0, st => st
  | k + 1, st => rounds draws k (round draws st).1

end Wifi4

namespace Wifi5

/-- wifi5.cpp:12 -/
def CSI_PACKET_SIZE : Int := 200
/-- wifi5.cpp:13 -/
def DATA_PACKET_SIZE : Int := 1024
/-- wifi5.cpp:14 -/
def BANDWIDTH : Int := 20
/-- wifi5.cpp:15 -/
def MODULATION_RATE : ℚ := 256
/-- wifi5.cpp:16 -/
def CODING_RATE : ℚ := 5 / 6
/-- wifi5.cpp:17, in milliseconds. -/
def COMMUNICATION_WINDOW : Nat := 15

/-- The wall clock of wifi5.cpp:19-22 as seen by the simulator: time is counted
in ticks, `ticksPerMs` ticks make one millisecond, and `poll` ticks pass
during one iteration of the busy-wait loop of wifi5.cpp:119 besides the time
slept in it. `poll = 0` is a clock that only sleeps advance. -/
structure Clock where
  ticksPerMs : Nat
  poll : Nat
  deriving DecidableEq, Repr

/-- wifi5.cpp:24-31; times are clock readings in ticks. -/
structure Packet where
  id : Int
  start_time : Nat
  end_time : Nat
  deriving DecidableEq, Repr

/-- wifi5.cpp:30 -/
def Packet.init (id : Int) : Packet := { id := id, start_time := 0, end_time := 0 }

/-- wifi5.cpp:40-82 -/
structure User where
  id : Int
  packets : List Packet
  deriving DecidableEq, Repr

/-- wifi5.cpp:45-49 -/
def User.init (id : Int) (num_packets : Int) : User :=
  { id := id
    packets := (List.range num_packets.toNat).map (fun i : Nat => Packet.init (i : Int)) }

/-- wifi5.cpp:51-53 -/
def User.hasPackets (u : User) : Bool := !u.packets.isEmpty

/-- wifi5.cpp:59-61 -/
def User.popPacket (u : User) : User := { u with packets := u.packets.tail }

/-- wifi5.cpp:84-89, together with the clock reading `now` and an observer
the source does not store: `delivered` lists every packet popped by
`transmitData`, with the time stamps it carried when it was popped. -/
structure Wifi5Simulator where
  users : List User
  total_time : Nat
  latencies : List Nat
  now : Nat
  delivered : List Packet
  deriving DecidableEq, Repr

/-- wifi5.cpp:92-97 -/
def Wifi5Simulator.init (num_users : Int) (num_packets_per_user : Int) : Wifi5Simulator :=
  { users := (List.range num_users.toNat).map (fun i : Nat => User.init (i : Int) num_packets_per_user)
    total_time := 0
    latencies := []
    now := 0
    delivered := [] }

/-- The effect of `this_thread::sleep_for(chrono::milliseconds(ms))` on the clock. -/
def sleep_for (c : Clock) (ms : Nat) (st : Wifi5Simulator) : Wifi5Simulator :=
  { st with now := st.now + ms * c.ticksPerMs }

/-- wifi5.cpp:35-37 -/
def broadcast (c : Clock) (st : Wifi5Simulator) : Wifi5Simulator := sleep_for c 2 st

/-- wifi5.cpp:63-65 -/
def sendCSI (c : Clock) (st : Wifi5Simulator) : Wifi5Simulator := sleep_for c 1 st

/-- wifi5.cpp:73-74, in seconds. -/
def transmission_time : ℚ :=
  max (((DATA_PACKET_SIZE : ℚ) * 8) / ((BANDWIDTH : ℚ) * 1000000 * MODULATION_RATE * CODING_RATE))
    (1 / 1000)

/-- wifi5.cpp:75: `static_cast<int>(transmission_time * 1000)` milliseconds. -/
def transmission_ms : Nat := (Rat.floor (transmission_time * 1000)).toNat

/-- wifi5.cpp:67-81. The parameter `window_start` is not used by the body. -/
def transmitData (c : Clock) (_window_start : Nat) (st : Wifi5Simulator) (user : User) :
    Wifi5Simulator × User :=
  if user.hasPackets then
    match user.packets with
    | [] => (st, user)
    | packet :: _ =>
      let packet := { packet with start_time := st.now }
      let st := sleep_for c transmission_ms st
      let packet := { packet with end_time := st.now }
      let st := { st with latencies := st.latencies ++ [packet.end_time - packet.start_time] }
      let st := { st with delivered := st.delivered ++ [packet] }
      (st, user.popPacket)
  else
    (st, user)

/-- wifi5.cpp:110-115: the channel-state loop; the flag is `all_users_done`. -/
def csiLoop (c : Clock) (st : Wifi5Simulator) (done : Bool) : List User → Wifi5Simulator × Bool
  | [] => (st, done)
  | user :: rest =>
    if user.hasPackets then csiLoop c (sendCSI c st) false rest
    else csiLoop c st done rest

/-- wifi5.cpp:120-124: one pass of `for (auto& user : users)` inside the window. -/
def forTransmit (c : Clock) (window_start : Nat) (st : Wifi5Simulator) :
    List User → Wifi5Simulator × List User
  | [] => (st, [])
  | user :: rest =>
    if user.hasPackets then
      let r := transmitData c window_start st user
      let q := forTransmit c window_start r.1 rest
      (q.1, r.2 :: q.2)
    else
      let q := forTransmit c window_start st rest
      (q.1, user :: q.2)

/-- wifi5.cpp:119-125: the window loop. The guard reads the clock, and one
iteration costs `c.poll` ticks besides the sleeps of its transmissions. -/
def windowLoop (c : Clock) (window_start : Nat) : Nat → Wifi5Simulator → Option Wifi5Simulator
  | 0, _ => none
  | fuel + 1, st =>
    if st.now - window_start ≤ COMMUNICATION_WINDOW * c.ticksPerMs then
      let r := forTransmit c window_start st st.users
      windowLoop c window_start fuel { r.1 with users := r.2, now := r.1.now + c.poll }
    else
      some st

/-- wifi5.cpp:104-118: the broadcast and the channel-state loop of a round;
returns the state in which the window opens and `all_users_done`. -/
def atWindow (c : Clock) (st : Wifi5Simulator) : Wifi5Simulator × Bool :=
  let st := broadcast c st
  csiLoop c st true st.users

/-- wifi5.cpp:104-125: one iteration of the outer `while (true)` body up to the
`if (all_users_done)` test. -/
def round (c : Clock) (fuel : Nat) (st : Wifi5Simulator) : Option (Wifi5Simulator × Bool) :=
  let r := atWindow c st
  let st := r.1
  let window_start := st.now
  match windowLoop c window_start fuel st with
  | none => none
  | some st => some (st, r.2)

/-- wifi5.cpp:103-130: the outer `while (true)` loop. -/
def simLoop (c : Clock) : Nat → Wifi5Simulator → Option Wifi5Simulator
  | 0, _ => none
  | fuel + 1, st =>
    match round c fuel st with
    | none => none
    | some r => if r.2 then some r.1 else simLoop c fuel r.1

/-- wifi5.cpp:99-135 -/
def simulate (c : Clock) (fuel : Nat) (st : Wifi5Simulator) : Option Wifi5Simulator :=
  let start_simulation := st.now
  match simLoop c fuel st with
  | none => none
  | some st => some { st with total_time := st.now - start_simulation }

/-- Number of packets still queued over all users. -/
def pending (us : List User) : Nat := (us.map (fun u => u.packets.length)).sum

end Wifi5

namespace Wifi6

/-- wifi6.cpp:13 -/
def DATA_PACKET_SIZE : Int := 1024
/-- wifi6.cpp:14 -/
def TOTAL_BANDWIDTH : Int := 20
/-- wifi6.cpp:15 -/
def MODULATION_RATE : ℚ := 256
/-- wifi6.cpp:16 -/
def CODING_RATE : ℚ := 5 / 6
/-- wifi6.cpp:17 -/
def SUB_CHANNELS : List Int := [2, 4, 10]

/-- wifi6.cpp:26-33; times are clock readings in milliseconds. -/
structure Packet where
  id : Int
  start_time : Nat
  end_time : Nat
  deriving DecidableEq, Repr

/-- wifi6.cpp:32 -/
def Packet.init (id : Int) : Packet := { id := id, start_time := 0, end_time := 0 }

/-- wifi6.cpp:36-50 -/
structure User where
  id : Int
  packets : List Packet
  deriving DecidableEq, Repr

/-- wifi6.cpp:41-45 -/
def User.init (id : Int) (num_packets : Int) : User :=
  { id := id
    packets := (List.range num_packets.toNat).map (fun i : Nat => Packet.init (i : Int)) }

/-- wifi6.cpp:47-49 -/
def User.hasPackets (u : User) : Bool := !u.packets.isEmpty

/-- wifi6.cpp:53-59, together with the clock reading in milliseconds. -/
structure Wifi6Simulator where
  total_bandwidth : Int
  users : List User
  total_time : Nat
  latencies : List Nat
  sub_channel_size : Int
  clock : Nat
  deriving DecidableEq, Repr

/-- wifi6.cpp:62-67 -/
def Wifi6Simulator.init (num_users : Int) (num_packets_per_user : Int) (sub_channel_size : Int) :
    Wifi6Simulator :=
  { total_bandwidth := TOTAL_BANDWIDTH
    users := (List.range num_users.toNat).map (fun i : Nat => User.init (i : Int) num_packets_per_user)
    total_time := 0
    latencies := []
    sub_channel_size := sub_channel_size
    clock := 0 }

/-- The ways a run of wifi6.cpp can leave defined behaviour: an integer
division or remainder by zero, or `users[user_id]` outside the vector. -/
inductive Fault where
  | divisionByZero
  | indexOutOfRange
  deriving DecidableEq, Repr

/-- A step of wifi6.cpp either yields a value or leaves defined behaviour. -/
inductive Run (α : Type) where
  | ok : α → Run α
  | error : Fault → Run α
  deriving DecidableEq, Repr

/-- wifi6.cpp:90-91, in seconds. -/
def transmission_time (sub_channel_size : Int) : ℚ :=
  max (((DATA_PACKET_SIZE : ℚ) * 8) /
      ((sub_channel_size : ℚ) * 1000000 * MODULATION_RATE * CODING_RATE))
    (5 / 1000)

/-- wifi6.cpp:92: `static_cast<int>(transmission_time * 1000)` milliseconds. -/
def transmission_ms (sub_channel_size : Int) : Nat :=
  (Rat.floor (transmission_time sub_channel_size * 1000)).toNat

/-- wifi6.cpp:80: `int user_id = i % users.size()`, for a non-empty vector. -/
def slotOwner (i : Nat) (user_count : Nat) : Nat := i % user_count

/-- wifi6.cpp:80-103: the body of the slot loop for slot `i`; `done` is
`all_users_done`. -/
def slotStep (st : Wifi6Simulator) (done : Bool) (i : Nat) :
    Run (Wifi6Simulator × Bool) :=
  if st.users.length = 0 then
    Run.error Fault.divisionByZero
  else
    let user_id := slotOwner i st.users.length
    match st.users[user_id]? with
    | none => Run.error Fault.indexOutOfRange
    | some user =>
      if user.hasPackets then
        match user.packets with
        | [] => Run.ok (st, false)
        | packet :: rest =>
          let packet := { packet with start_time := st.clock }
          let st := { st with clock := st.clock + transmission_ms st.sub_channel_size }
          let packet := { packet with end_time := st.clock }
          let st := { st with latencies := st.latencies ++ [packet.end_time - packet.start_time] }
          let st := { st with users := st.users.set user_id { user with packets := rest } }
          Run.ok (st, false)
      else
        Run.ok (st, done)

/-- wifi6.cpp:79-104: `for (int i = 0; i < num_sub_channels; ++i)` over the
listed slots. -/
def forSlots (st : Wifi6Simulator) (done : Bool) : List Nat → Run (Wifi6Simulator × Bool)
  | [] => Run.ok (st, done)
  | i :: rest =>
    match slotStep st done i with
    | Run.error e => Run.error e
    | Run.ok r => forSlots r.1 r.2 rest

/-- wifi6.cpp:75-109: the `while (true)` loop. -/
def simLoop (num_sub_channels : Int) : Nat → Wifi6Simulator → Option (Run Wifi6Simulator)
  | 0, _ => none
  | fuel + 1, st =>
    match forSlots st true (List.range num_sub_channels.toNat) with
    | Run.error e => some (Run.error e)
    | Run.ok r => if r.2 then some (Run.ok r.1) else simLoop num_sub_channels fuel r.1

/-- wifi6.cpp:69-114. `none` means the fuel ran out. -/
def simulate (fuel : Nat) (st : Wifi6Simulator) : Option (Run Wifi6Simulator) :=
  let start_simulation := st.clock
  if st.sub_channel_size = 0 then
    some (Run.error Fault.divisionByZero)
  else
    let num_sub_channels := Int.tdiv st.total_bandwidth st.sub_channel_size
    match simLoop num_sub_channels fuel st with
    | none => none
    | some (Run.error e) => some (Run.error e)
    | some (Run.ok st) => some (Run.ok { st with total_time := st.clock - start_simulation })

/-- The number of slots of one round of `S` slots that go to user `u` when
there are `N` users. -/
def slotsOf (S N u : Nat) : Nat := ((List.range S).filter (fun i => slotOwner i N = u)).length

end Wifi6

/-- The result printed by `calculateMetrics` when latencies were recorded. -/
structure Metrics where
  throughput : ℚ
  avg_latency : ℚ
  max_latency : ℚ
  deriving DecidableEq

/-- The fold of `std::accumulate(first, last, init)`. -/
def accumulate (xs : List ℚ) (init : ℚ) : ℚ := xs.foldl (fun acc x => acc + x) init

/-- The scan of `std::max_element` after its first element: `largest` is
replaced whenever `largest < x`. -/
def max_element_from (largest : ℚ) : List ℚ → ℚ
  | [] => largest
  | x :: rest => if largest < x then max_element_from x rest else max_element_from largest rest

/-- The value `*std::max_element(first, last)`; `none` for an empty range. -/
def max_element : List ℚ → Option ℚ
  | [] => none
  | x :: rest => some (max_element_from x rest)

/-- The body shared by wifi4.cpp:141-155, wifi5.cpp:137-151 and
wifi6.cpp:116-131, which differ in the name of the packet-size constant and in
the text of the message. `none` is the "no packets transmitted" message,
printed before returning; `some m` are the three printed figures before the
division of the throughput by `1e6`. The product `latencies.size() * 1024 * 8`
is taken without wrap-around: it stays below `2 ^ 64` for every vector that
fits in memory. -/
def calculateMetricsBody (packet_size : Int) (latencies : List ℚ) (total_time : ℚ) :
    Option Metrics :=
  if latencies.isEmpty then
    none
  else
    match max_element latencies with
    | none => none
    | some m =>
      some { throughput := (((latencies.length : Int) * packet_size * 8 : Int) : ℚ) / total_time
             avg_latency := accumulate latencies 0 / (latencies.length : ℚ)
             max_latency := m }

/-- wifi4.cpp:141-155; latencies are in milliseconds, `total_time` in seconds. -/
def Wifi4.calculateMetrics (st : Wifi4.Wifi4Simulator) : Option Metrics :=
  calculateMetricsBody Wifi4.PACKET_SIZE (st.latencies.map (fun x => (x : ℚ)))
    ((st.total_time : ℚ) / 1000)

/-- wifi5.cpp:137-151; ticks are converted to milliseconds and seconds. -/
def Wifi5.calculateMetrics (c : Wifi5.Clock) (st : Wifi5.Wifi5Simulator) : Option Metrics :=
  calculateMetricsBody Wifi5.DATA_PACKET_SIZE
    (st.latencies.map (fun x => (x : ℚ) / (c.ticksPerMs : ℚ)))
    ((st.total_time : ℚ) / ((c.ticksPerMs : ℚ) * 1000))

/-- wifi6.cpp:116-131; latencies are in milliseconds, `total_time` in seconds. -/
def Wifi6.calculateMetrics (st : Wifi6.Wifi6Simulator) : Option Metrics :=
  calculateMetricsBody Wifi6.DATA_PACKET_SIZE (st.latencies.map (fun x => (x : ℚ)))
    ((st.total_time : ℚ) / 1000)


/-! ## Contention policy (wifi4.cpp) -/

namespace Wifi4

theorem userStep_idle (draws : Nat → Nat) (st : Wifi4Simulator) (done : Bool) (user : User)
    (h : user.packets = []) : userStep draws st done user = (st, done, user) := by
  simp [userStep, User.hasPackets, h]

theorem userStep_free (draws : Nat → Nat) (st : Wifi4Simulator) (done : Bool) (user : User)
    (p : Packet) (rest : List Packet) (hfree : st.ap.is_channel_free = true)
    (h : user.packets = p :: rest) :
    (userStep draws st done user).1.ap.is_channel_free = true ∧
    (userStep draws st done user).1.backoff_calls = st.backoff_calls ∧
    (userStep draws st done user).1.latencies.length = st.latencies.length + 1 ∧
    (userStep draws st done user).1.checks = st.checks ++ [true] ∧
    (userStep draws st done user).2.1 = false ∧
    (userStep draws st done user).2.2 = popFront user := by
  simp [userStep, User.hasPackets, h, AccessPoint.checkChannel, hfree,
    AccessPoint.occupyChannel, AccessPoint.releaseChannel, popFront]

theorem forUsers_free (draws : Nat → Nat) :
    ∀ (us : List User) (st : Wifi4Simulator) (done : Bool), st.ap.is_channel_free = true →
      (forUsers draws st done us).1.ap.is_channel_free = true ∧
      (forUsers draws st done us).1.backoff_calls = st.backoff_calls ∧
      (forUsers draws st done us).1.latencies.length =
        st.latencies.length + us.countP User.hasPackets ∧
      (forUsers draws st done us).1.checks =
        st.checks ++ List.replicate (us.countP User.hasPackets) true ∧
      (forUsers draws st done us).2.1 = (done && us.all (fun u => !u.hasPackets)) ∧
      (forUsers draws st done us).2.2 = us.map popFront := by
  intro us
  induction us with
  | nil => intro st done hfree; simp [forUsers, hfree]
  | cons u rest ih =>
    intro st done hfree
    cases hq : u.packets with
    | nil =>
      have hs := userStep_idle draws st done u hq
      have hu : u.hasPackets = false := by simp [User.hasPackets, hq]
      have hp : popFront u = u := by cases u; simp_all [popFront]
      obtain ⟨h1, h2, h3, h4, h5, h6⟩ := ih st done hfree
      simp only [forUsers, hs]
      refine ⟨h1, h2, ?_, ?_, ?_, ?_⟩
      · simp [h3, hu]
      · simp [h4, hu]
      · simp [h5, hu]
      · simp [h6, hp]
    | cons p ps =>
      obtain ⟨s1, s2, s3, s4, s5, s6⟩ := userStep_free draws st done u p ps hfree hq
      have hu : u.hasPackets = true := by simp [User.hasPackets, hq]
      obtain ⟨h1, h2, h3, h4, h5, h6⟩ := ih (userStep draws st done u).1
        (userStep draws st done u).2.1 s1
      simp only [forUsers]
      refine ⟨h1, h2.trans s2, ?_, ?_, ?_, ?_⟩
      · rw [h3, s3, List.countP_cons_of_pos _ _ hu]; omega
      · rw [h4, s4, List.countP_cons_of_pos _ _ hu, List.replicate_succ]; simp
      · rw [h5, s5]; simp [hu]
      · rw [h6, s6]; simp

end Wifi4

namespace Wifi4

theorem pending_popFront (us : List User) :
    pending (us.map popFront) + us.countP User.hasPackets = pending us := by
  induction us with
  | nil => simp [pending]
  | cons u rest ih =>
    have ih2 : (List.map (fun u => u.packets.length) (List.map popFront rest)).sum +
        List.countP User.hasPackets rest = (List.map (fun u => u.packets.length) rest).sum := ih
    cases hq : u.packets with
    | nil =>
      have hu : u.hasPackets = false := by simp [User.hasPackets, hq]
      simp only [pending, List.map_cons, List.sum_cons, popFront, hq, List.tail_nil,
        List.length_nil]
      rw [List.countP_cons_of_neg _ _ (by simp [hu])]
      omega
    | cons p ps =>
      have hu : u.hasPackets = true := by simp [User.hasPackets, hq]
      simp only [pending, List.map_cons, List.sum_cons, popFront, hq, List.tail_cons,
        List.length_cons]
      rw [List.countP_cons_of_pos _ _ hu]
      omega

theorem all_idle_iff (us : List User) :
    us.all (fun u => !u.hasPackets) = true ↔ pending us = 0 := by
  induction us with
  | nil => simp [pending]
  | cons u rest ih =>
    have ih2 : (rest.all (fun u => !u.hasPackets) = true) ↔
        (List.map (fun u => u.packets.length) rest).sum = 0 := ih
    simp only [List.all_cons, Bool.and_eq_true, ih2, pending, List.map_cons, List.sum_cons]
    cases hq : u.packets <;> simp [User.hasPackets, hq]

theorem pending_zero_iff (us : List User) : pending us = 0 ↔ ∀ u ∈ us, u.packets = [] := by
  induction us with
  | nil => simp [pending]
  | cons u rest ih =>
    have ih2 : (List.map (fun u => u.packets.length) rest).sum = 0 ↔
        ∀ u ∈ rest, u.packets = [] := ih
    simp only [pending, List.map_cons, List.sum_cons, List.mem_cons, forall_eq_or_imp]
    rw [← ih2]
    cases hq : u.packets <;> simp

theorem countP_zero_of_pending_zero (us : List User) (h : pending us = 0) :
    us.countP User.hasPackets = 0 := by
  have := pending_popFront us
  omega

/-- What one round does when it starts with the channel free. -/
theorem round_free (draws : Nat → Nat) (st : Wifi4Simulator) (hfree : st.ap.is_channel_free = true) :
    (round draws st).1.ap.is_channel_free = true ∧
    (round draws st).1.backoff_calls = st.backoff_calls ∧
    (round draws st).1.latencies.length = st.latencies.length + st.users.countP User.hasPackets ∧
    (round draws st).1.checks =
      st.checks ++ List.replicate (st.users.countP User.hasPackets) true ∧
    (round draws st).2 = st.users.all (fun u => !u.hasPackets) ∧
    (round draws st).1.users = st.users.map popFront := by
  obtain ⟨h1, h2, h3, h4, h5, h6⟩ := forUsers_free draws st.users st true hfree
  simp only [round]
  exact ⟨h1, h2, h3, h4, by simpa using h5, h6⟩

theorem simLoop_free (draws : Nat → Nat) :
    ∀ (n : Nat) (st : Wifi4Simulator), pending st.users = n → st.ap.is_channel_free = true →
      ∃ F, ∀ fuel, F ≤ fuel → ∃ st', simLoop draws fuel st = some st' ∧
        st'.latencies.length = st.latencies.length + n ∧
        (∀ u ∈ st'.users, u.packets = []) ∧
        st'.backoff_calls = st.backoff_calls ∧
        ((∀ b ∈ st.checks, b = true) → ∀ b ∈ st'.checks, b = true) := by
  intro n
  induction n using Nat.strong_induction_on with
  | _ n ih =>
    intro st hn hfree
    obtain ⟨h1, h2, h3, h4, h5, h6⟩ := round_free draws st hfree
    have hpop := pending_popFront st.users
    have hchk : (∀ b ∈ st.checks, b = true) → ∀ b ∈ (round draws st).1.checks, b = true := by
      intro hall b hb
      rw [h4, List.mem_append] at hb
      rcases hb with hb | hb
      · exact hall b hb
      · exact (List.mem_replicate.mp hb).2
    by_cases hdone : (round draws st).2 = true
    · have hz : pending st.users = 0 := (all_idle_iff st.users).mp (h5 ▸ hdone)
      have hc := countP_zero_of_pending_zero st.users hz
      refine ⟨1, fun fuel hf => ?_⟩
      obtain ⟨f, rfl⟩ : ∃ f, fuel = f + 1 := ⟨fuel - 1, by omega⟩
      refine ⟨(round draws st).1, by simp [simLoop, hdone], by omega, ?_, h2, hchk⟩
      rw [← pending_zero_iff, h6]
      omega
    · have hnz : pending st.users ≠ 0 := fun hz => hdone (h5 ▸ (all_idle_iff st.users).mpr hz)
      have hcpos : 0 < st.users.countP User.hasPackets := by
        rcases Nat.eq_zero_or_pos (st.users.countP User.hasPackets) with hc | hc
        · exfalso
          apply hdone
          rw [h5, List.all_eq_true]
          intro u hu
          have := (List.countP_eq_zero.mp hc) u hu
          simpa using this
        · exact hc
      have hlt : pending (round draws st).1.users < n := by rw [h6]; omega
      obtain ⟨F, hF⟩ := ih _ hlt (round draws st).1 rfl h1
      refine ⟨F + 1, fun fuel hf => ?_⟩
      obtain ⟨f, rfl⟩ : ∃ f, fuel = f + 1 := ⟨fuel - 1, by omega⟩
      obtain ⟨st', e1, e2, e3, e4, e5⟩ := hF f (by omega)
      refine ⟨st', by simp [simLoop, hdone, e1], ?_, e3, e4.trans h2, fun hall => e5 (hchk hall)⟩
      rw [e2, h3, h6]
      omega

theorem pending_init (N B P : Int) :
    pending (Wifi4Simulator.init N B P).users = N.toNat * P.toNat := by
  simp [pending, Wifi4Simulator.init, User.init, Function.comp_def]

end Wifi4

namespace Wifi4

theorem rounds_free (draws : Nat → Nat) :
    ∀ (k : Nat) (st : Wifi4Simulator), st.ap.is_channel_free = true →
      (∀ b ∈ st.checks, b = true) →
      (rounds draws k st).ap.is_channel_free = true ∧
      (∀ b ∈ (rounds draws k st).checks, b = true) ∧
      (rounds draws k st).backoff_calls = st.backoff_calls := by
  intro k
  induction k with
  | zero => intro st hfree hall; exact ⟨hfree, hall, rfl⟩
  | succ k ih =>
    intro st hfree hall
    obtain ⟨h1, h2, _, h4, _, _⟩ := round_free draws st hfree
    have hchk : ∀ b ∈ (round draws st).1.checks, b = true := by
      intro b hb
      rw [h4, List.mem_append] at hb
      rcases hb with hb | hb
      · exact hall b hb
      · exact (List.mem_replicate.mp hb).2
    obtain ⟨i1, i2, i3⟩ := ih (round draws st).1 h1 hchk
    exact ⟨i1, i2, i3.trans h2⟩

/-- C4. For `N ≥ 0` users with `P ≥ 0` packets each, the round loop of
`Wifi4Simulator::simulate` terminates (every large enough fuel gives a final
state), the number of recorded latencies is `N * P`, and every user's queue
is empty at the end. -/
theorem simulate_delivers_all (draws : Nat → Nat) (N B P : Int) (hN : 0 ≤ N) (hP : 0 ≤ P) :
    ∃ F, ∀ fuel, F ≤ fuel → ∃ st', simulate draws fuel (Wifi4Simulator.init N B P) = some st' ∧
      (st'.latencies.length : Int) = N * P ∧ ∀ u ∈ st'.users, u.packets = [] := by
  obtain ⟨F, hF⟩ := simLoop_free draws _ (Wifi4Simulator.init N B P) rfl rfl
  refine ⟨F, fun fuel hf => ?_⟩
  obtain ⟨st', e1, e2, e3, _, _⟩ := hF fuel hf
  refine ⟨{ st' with total_time := st'.clock - (Wifi4Simulator.init N B P).clock }, ?_, ?_, e3⟩
  · simp [simulate, e1]
  · show (st'.latencies.length : Int) = N * P
    rw [e2, pending_init]
    simp [Wifi4Simulator.init, Int.toNat_of_nonneg hN, Int.toNat_of_nonneg hP]

/-- C4 at one user with one packet and the channel initially free: the run
ends and records exactly one latency. -/
theorem simulate_delivers_all_witness :
    (0 : Int) ≤ 1 ∧ (0 : Int) ≤ 1 ∧
    ∃ F, ∀ fuel, F ≤ fuel → ∃ st',
      simulate (fun _ => 0) fuel (Wifi4Simulator.init 1 MAX_BACKOFF_TIME 1) = some st' ∧
      (st'.latencies.length : Int) = 1 * 1 ∧ ∀ u ∈ st'.users, u.packets = [] :=
  ⟨by decide, by decide,
    simulate_delivers_all (fun _ => 0) 1 MAX_BACKOFF_TIME 1 (by decide) (by decide)⟩

/-- C10. In `Wifi4Simulator::simulate`, for every user count and every
packets-per-user: the run ends with every recorded `checkChannel` result true
and `random_backoff` never called; and after any number `k` of rounds the
channel is free, every check made so far returned true, no backoff was drawn,
and the next round pops exactly one packet from every user that still has one
(recording one latency for each) and leaves the other users untouched. -/
theorem channel_always_free (draws : Nat → Nat) (N B P : Int) :
    (∃ F, ∀ fuel, F ≤ fuel → ∃ st', simulate draws fuel (Wifi4Simulator.init N B P) = some st' ∧
      (∀ b ∈ st'.checks, b = true) ∧ st'.backoff_calls = 0) ∧
    ∀ k : Nat,
      (rounds draws k (Wifi4Simulator.init N B P)).ap.is_channel_free = true ∧
      (∀ b ∈ (rounds draws k (Wifi4Simulator.init N B P)).checks, b = true) ∧
      (rounds draws k (Wifi4Simulator.init N B P)).backoff_calls = 0 ∧
      (round draws (rounds draws k (Wifi4Simulator.init N B P))).1.users =
        (rounds draws k (Wifi4Simulator.init N B P)).users.map
          (fun u => { u with packets := u.packets.tail }) ∧
      (round draws (rounds draws k (Wifi4Simulator.init N B P))).1.latencies.length =
        (rounds draws k (Wifi4Simulator.init N B P)).latencies.length +
          (rounds draws k (Wifi4Simulator.init N B P)).users.countP User.hasPackets := by
  constructor
  · obtain ⟨F, hF⟩ := simLoop_free draws _ (Wifi4Simulator.init N B P) rfl rfl
    refine ⟨F, fun fuel hf => ?_⟩
    obtain ⟨st', e1, _, _, e4, e5⟩ := hF fuel hf
    refine ⟨{ st' with total_time := st'.clock - (Wifi4Simulator.init N B P).clock }, ?_, ?_, ?_⟩
    · simp [simulate, e1]
    · exact e5 (by simp [Wifi4Simulator.init])
    · exact e4
  · intro k
    obtain ⟨h1, h2, h3⟩ := rounds_free draws k (Wifi4Simulator.init N B P) rfl
      (by simp [Wifi4Simulator.init])
    obtain ⟨_, _, r3, _, _, r6⟩ := round_free draws _ h1
    exact ⟨h1, h2, h3, r6, r3⟩

end Wifi4

/-! ## Partitioned policy (wifi6.cpp) -/

namespace Wifi6

theorem forSlots_idle :
    ∀ (slots : List Nat) (st : Wifi6Simulator) (done : Bool), st.users ≠ [] →
      (∀ u ∈ st.users, u.packets = []) → forSlots st done slots = Run.ok (st, done) := by
  intro slots
  induction slots with
  | nil => intro st done _ _; rfl
  | cons i rest ih =>
    intro st done hne hall
    have hlen : st.users.length ≠ 0 := by
      intro h; exact hne (List.length_eq_zero.mp h)
    have hlt : slotOwner i st.users.length < st.users.length :=
      Nat.mod_lt _ (Nat.pos_of_ne_zero hlen)
    have hget : st.users[slotOwner i st.users.length]? =
        some (st.users[slotOwner i st.users.length]) := List.getElem?_eq_getElem hlt
    have hq : (st.users[slotOwner i st.users.length]).packets = [] :=
      hall _ (List.getElem_mem _)
    have hstep : slotStep st done i = Run.ok (st, done) := by
      simp [slotStep, hlen, hget, User.hasPackets, hq]
    simp only [forSlots, hstep]
    exact ih st done hne hall

theorem slotsOf_eq (S N u : Nat) (hN : 1 ≤ N) (hu : u < N) :
    slotsOf S N u = S / N + (if u < S % N then 1 else 0) := by
  have h := Nat.count_modEq_card (b := S) (r := N) (by omega) u
  rw [Nat.mod_eq_of_lt hu] at h
  rw [← h, slotsOf, ← List.countP_eq_length_filter, Nat.count]
  apply List.countP_congr
  intro i _
  simp [slotOwner, Nat.ModEq, Nat.mod_eq_of_lt hu]

/-- C8. In one round of `S` slots where slot `i` goes to `users[i mod N]`
(`N ≥ 1`), user `u < N` gets `S / N + 1` slots if `u < S mod N` and `S / N`
otherwise; so at least `floor (S / N)` and at most `ceil (S / N)` slots. -/
theorem slot_share (S N u : Nat) (hN : 1 ≤ N) (hu : u < N) :
    slotsOf S N u = S / N + (if u < S % N then 1 else 0) ∧
    S / N ≤ slotsOf S N u ∧ slotsOf S N u ≤ (S + N - 1) / N := by
  have h := slotsOf_eq S N u hN hu
  refine ⟨h, by rw [h]; omega, ?_⟩
  rw [h, Nat.le_div_iff_mul_le (by omega)]
  have hdm := Nat.div_add_mod S N
  have hcomm : N * (S / N) = S / N * N := Nat.mul_comm _ _
  have hlt := Nat.mod_lt S hN
  split
  · rw [Nat.add_mul, Nat.one_mul]; omega
  · rw [Nat.add_zero]; omega

/-- C8 at 100 users and the 5 slots of `sub_channel_size = 4`: user 3 gets one slot. -/
theorem slot_share_witness :
    1 ≤ 100 ∧ 3 < 100 ∧
    (slotsOf 5 100 3 = 5 / 100 + (if 3 < 5 % 100 then 1 else 0) ∧
     5 / 100 ≤ slotsOf 5 100 3 ∧ slotsOf 5 100 3 ≤ (5 + 100 - 1) / 100) :=
  ⟨by decide, by decide, slot_share 5 100 3 (by decide) (by decide)⟩

/-- C1, at 100 users with one packet each and `sub_channel_size = 4` (five
slots per round): `simulate` returns after two rounds with 5 latencies
recorded, users 0..4 drained and users 5..99 still holding their packet. -/
theorem simulate_starves_late_users :
    ∀ fuel : Nat, ∃ st, simulate (fuel + 2) (Wifi6Simulator.init 100 1 4) = some (Run.ok st) ∧
      st.latencies.length = 5 ∧
      st.users.map (fun u => u.packets.length) = List.replicate 5 0 ++ List.replicate 95 1 := by
  intro fuel
  refine ⟨_, rfl, ?_, ?_⟩
  · decide!
  · decide!

/-- C6 fails as stated at zero users: for each sub-channel size of the driver
the first slot of `Wifi6Simulator::simulate` computes `0 % users.size()` with
an empty vector, a remainder by zero. -/
theorem simulate_no_users_faults :
    simulate 1 (Wifi6Simulator.init 0 1 2) = some (Run.error Fault.divisionByZero) ∧
    simulate 1 (Wifi6Simulator.init 0 1 4) = some (Run.error Fault.divisionByZero) ∧
    simulate 1 (Wifi6Simulator.init 0 1 10) = some (Run.error Fault.divisionByZero) :=
  ⟨rfl, rfl, rfl⟩

end Wifi6

/-! ## Metrics (calculateMetrics of the three simulators) -/

theorem accumulate_eq_sum (xs : List ℚ) (init : ℚ) : accumulate xs init = init + xs.sum := by
  induction xs generalizing init with
  | nil => simp [accumulate]
  | cons x rest ih =>
    have h : accumulate (x :: rest) init = accumulate rest (init + x) := rfl
    rw [h, ih, List.sum_cons, add_assoc]

theorem max_element_from_mem (a : ℚ) (xs : List ℚ) : max_element_from a xs ∈ a :: xs := by
  induction xs generalizing a with
  | nil => simp [max_element_from]
  | cons x rest ih =>
    simp only [max_element_from]
    split
    · have := ih x
      exact List.mem_cons_of_mem _ this
    · have := ih a
      rcases List.mem_cons.mp this with h | h
      · rw [h]; exact List.mem_cons_self _ _
      · exact List.mem_cons_of_mem _ (List.mem_cons_of_mem _ h)

theorem max_element_from_ge (a : ℚ) (xs : List ℚ) :
    ∀ y ∈ a :: xs, y ≤ max_element_from a xs := by
  induction xs generalizing a with
  | nil => intro y hy; simp [max_element_from] at *; exact le_of_eq hy
  | cons x rest ih =>
    intro y hy
    simp only [max_element_from]
    split
    · rename_i hlt
      rcases List.mem_cons.mp hy with h | h
      · rw [h]; exact le_trans (le_of_lt hlt) (ih x x (List.mem_cons_self _ _))
      · exact ih x y h
    · rename_i hnlt
      rcases List.mem_cons.mp hy with h | h
      · rw [h]; exact ih a a (List.mem_cons_self _ _)
      · rcases List.mem_cons.mp h with h2 | h2
        · rw [h2]; exact le_trans (not_lt.mp hnlt) (ih a a (List.mem_cons_self _ _))
        · exact ih a y (List.mem_cons_of_mem _ h2)

/-- C9. For a non-empty list of latencies and a positive elapsed time, the
body of `calculateMetrics` (shared by the three simulators, with their packet
size of 1024 bytes as `ps`) yields figures with
`throughput = count * ps * 8 / elapsed`, `avg_latency = sum / count`,
`max_latency` a maximum element of the list, and `avg_latency ≤ max_latency`. -/
theorem calculateMetrics_spec (ps : Int) (lats : List ℚ) (elapsed : ℚ) (hne : lats ≠ [])
    (hpos : 0 < elapsed) :
    ∃ m, calculateMetricsBody ps lats elapsed = some m ∧
      m.throughput = ((lats.length : ℚ) * (ps : ℚ) * 8) / elapsed ∧
      m.throughput * elapsed = (lats.length : ℚ) * (ps : ℚ) * 8 ∧
      m.avg_latency = lats.sum / (lats.length : ℚ) ∧
      m.max_latency ∈ lats ∧ (∀ x ∈ lats, x ≤ m.max_latency) ∧
      m.avg_latency ≤ m.max_latency := by
  cases hl : lats with
  | nil => exact absurd hl hne
  | cons a xs =>
    have hmem := max_element_from_mem a xs
    have hge := max_element_from_ge a xs
    have hlen : (0 : ℚ) < ((a :: xs).length : ℚ) := by
      simp only [List.length_cons]; exact_mod_cast Nat.succ_pos _
    have hsum : (a :: xs).sum ≤ ((a :: xs).length : ℚ) * max_element_from a xs := by
      have := List.sum_le_card_nsmul (a :: xs) (max_element_from a xs) hge
      simpa [nsmul_eq_mul] using this
    refine ⟨{ throughput := ((((a :: xs).length : Int) * ps * 8 : Int) : ℚ) / elapsed
              avg_latency := accumulate (a :: xs) 0 / ((a :: xs).length : ℚ)
              max_latency := max_element_from a xs }, ?_, ?_, ?_, ?_, hmem, hge, ?_⟩
    · simp [calculateMetricsBody, max_element]
    · show ((((a :: xs).length : Int) * ps * 8 : Int) : ℚ) / elapsed = _
      push_cast; rfl
    · show ((((a :: xs).length : Int) * ps * 8 : Int) : ℚ) / elapsed * elapsed = _
      rw [div_mul_cancel₀ _ (ne_of_gt hpos)]
      push_cast; rfl
    · show accumulate (a :: xs) 0 / ((a :: xs).length : ℚ) = _
      rw [accumulate_eq_sum, zero_add]
    · show accumulate (a :: xs) 0 / ((a :: xs).length : ℚ) ≤ max_element_from a xs
      rw [accumulate_eq_sum, zero_add, div_le_iff₀ hlen, mul_comm]
      exact hsum

/-- C9 at the latencies `[1, 3]` ms of 1024-byte packets over 2 seconds. -/
theorem calculateMetrics_spec_witness :
    ([1, 3] : List ℚ) ≠ [] ∧ (0 : ℚ) < 2 ∧
    ∃ m, calculateMetricsBody 1024 [1, 3] 2 = some m ∧
      m.throughput = ((([1, 3] : List ℚ).length : ℚ) * ((1024 : Int) : ℚ) * 8) / 2 ∧
      m.throughput * 2 = (([1, 3] : List ℚ).length : ℚ) * ((1024 : Int) : ℚ) * 8 ∧
      m.avg_latency = ([1, 3] : List ℚ).sum / (([1, 3] : List ℚ).length : ℚ) ∧
      m.max_latency ∈ ([1, 3] : List ℚ) ∧ (∀ x ∈ ([1, 3] : List ℚ), x ≤ m.max_latency) ∧
      m.avg_latency ≤ m.max_latency :=
  ⟨by simp, by norm_num, calculateMetrics_spec 1024 [1, 3] 2 (by simp) (by norm_num)⟩

/-! ## Scheduled policy (wifi5.cpp) -/

namespace Wifi5

theorem w5_pending_pop (us : List User) :
    pending (us.map User.popPacket) + us.countP User.hasPackets = pending us := by
  induction us with
  | nil => simp [pending]
  | cons u rest ih =>
    have ih2 : (List.map (fun u => u.packets.length) (List.map User.popPacket rest)).sum +
        List.countP User.hasPackets rest = (List.map (fun u => u.packets.length) rest).sum := ih
    cases hq : u.packets with
    | nil =>
      have hu : u.hasPackets = false := by simp [User.hasPackets, hq]
      simp only [pending, List.map_cons, List.sum_cons, User.popPacket, hq, List.tail_nil,
        List.length_nil]
      rw [List.countP_cons_of_neg _ _ (by simp [hu])]
      omega
    | cons p ps =>
      have hu : u.hasPackets = true := by simp [User.hasPackets, hq]
      simp only [pending, List.map_cons, List.sum_cons, User.popPacket, hq, List.tail_cons,
        List.length_cons]
      rw [List.countP_cons_of_pos _ _ hu]
      omega

theorem w5_all_idle_iff (us : List User) :
    us.all (fun u => !u.hasPackets) = true ↔ pending us = 0 := by
  induction us with
  | nil => simp [pending]
  | cons u rest ih =>
    have ih2 : (rest.all (fun u => !u.hasPackets) = true) ↔
        (List.map (fun u => u.packets.length) rest).sum = 0 := ih
    simp only [List.all_cons, Bool.and_eq_true, ih2, pending, List.map_cons, List.sum_cons]
    cases hq : u.packets <;> simp [User.hasPackets, hq]

theorem w5_pending_zero_iff (us : List User) :
    pending us = 0 ↔ ∀ u ∈ us, u.packets = [] := by
  induction us with
  | nil => simp [pending]
  | cons u rest ih =>
    have ih2 : (List.map (fun u => u.packets.length) rest).sum = 0 ↔
        ∀ u ∈ rest, u.packets = [] := ih
    simp only [pending, List.map_cons, List.sum_cons, List.mem_cons, forall_eq_or_imp]
    rw [← ih2]
    cases hq : u.packets <;> simp

theorem w5_pending_init (N P : Int) :
    pending (Wifi5Simulator.init N P).users = N.toNat * P.toNat := by
  simp [pending, Wifi5Simulator.init, User.init, Function.comp_def]

theorem transmitData_spec (c : Clock) (ws : Nat) (st : Wifi5Simulator) (u : User)
    (h : u.hasPackets = true) :
    (transmitData c ws st u).2 = u.popPacket ∧
    (transmitData c ws st u).1.latencies.length = st.latencies.length + 1 ∧
    st.now ≤ (transmitData c ws st u).1.now := by
  cases hq : u.packets with
  | nil => simp [User.hasPackets, hq] at h
  | cons p ps =>
    simp [transmitData, h, hq, sleep_for]

theorem forTransmit_spec (c : Clock) (ws : Nat) :
    ∀ (us : List User) (st : Wifi5Simulator),
      (forTransmit c ws st us).2 = us.map User.popPacket ∧
      (forTransmit c ws st us).1.latencies.length =
        st.latencies.length + us.countP User.hasPackets ∧
      st.now ≤ (forTransmit c ws st us).1.now := by
  intro us
  induction us with
  | nil => intro st; simp [forTransmit]
  | cons u rest ih =>
    intro st
    by_cases hu : u.hasPackets = true
    · obtain ⟨t1, t2, t3⟩ := transmitData_spec c ws st u hu
      obtain ⟨h1, h2, h3⟩ := ih (transmitData c ws st u).1
      simp only [forTransmit, hu, if_true]
      refine ⟨by rw [h1, t1]; rfl, ?_, le_trans t3 h3⟩
      rw [h2, t2, List.countP_cons_of_pos _ _ hu]; omega
    · obtain ⟨h1, h2, h3⟩ := ih st
      have hq : u.packets = [] := by
        cases hq : u.packets with
        | nil => rfl
        | cons p ps => simp [User.hasPackets, hq] at hu
      have hp : u.popPacket = u := by cases u; simp_all [User.popPacket]
      have hf : u.hasPackets = false := by simpa using hu
      simp only [forTransmit, hf, Bool.false_eq_true, if_false]
      refine ⟨by simp [h1, hp], ?_, h3⟩
      rw [h2, List.countP_cons_of_neg _ _ hu]

theorem csiLoop_spec (c : Clock) :
    ∀ (us : List User) (st : Wifi5Simulator) (done : Bool),
      (csiLoop c st done us).1.users = st.users ∧
      (csiLoop c st done us).1.latencies = st.latencies ∧
      (csiLoop c st done us).2 = (done && us.all (fun u => !u.hasPackets)) := by
  intro us
  induction us with
  | nil => intro st done; simp [csiLoop]
  | cons u rest ih =>
    intro st done
    by_cases hu : u.hasPackets = true
    · obtain ⟨h1, h2, h3⟩ := ih (sendCSI c st) false
      simp only [csiLoop, hu, if_true]
      exact ⟨h1, h2, by rw [h3]; simp [hu]⟩
    · obtain ⟨h1, h2, h3⟩ := ih st done
      have hf : u.hasPackets = false := by simpa using hu
      simp only [csiLoop, hf, Bool.false_eq_true, if_false]
      exact ⟨h1, h2, by rw [h3]; simp [hf]⟩

/-- The state in which the window loop continues after a pass. -/
theorem windowLoop_succ (c : Clock) (ws fuel : Nat) (st : Wifi5Simulator) :
    windowLoop c ws (fuel + 1) st =
      if st.now - ws ≤ COMMUNICATION_WINDOW * c.ticksPerMs then
        windowLoop c ws fuel
          { (forTransmit c ws st st.users).1 with
            users := (forTransmit c ws st st.users).2
            now := (forTransmit c ws st st.users).1.now + c.poll }
      else some st := rfl

theorem windowLoop_sound (c : Clock) (ws : Nat) :
    ∀ (fuel : Nat) (st st' : Wifi5Simulator), windowLoop c ws fuel st = some st' →
      st'.latencies.length + pending st'.users = st.latencies.length + pending st.users ∧
      pending st'.users ≤ pending st.users ∧
      (st.now - ws ≤ COMMUNICATION_WINDOW * c.ticksPerMs →
        pending st'.users + st.users.countP User.hasPackets ≤ pending st.users) := by
  intro fuel
  induction fuel with
  | zero => intro st st' h; simp [windowLoop] at h
  | succ f ih =>
    intro st st' h
    rw [windowLoop_succ] at h
    obtain ⟨p1, p2, _⟩ := forTransmit_spec c ws st.users st
    have hpop := w5_pending_pop st.users
    by_cases hg : st.now - ws ≤ COMMUNICATION_WINDOW * c.ticksPerMs
    · rw [if_pos hg] at h
      obtain ⟨i1, i2, _⟩ := ih _ st' h
      simp only [p1, p2] at i1 i2
      refine ⟨by omega, by omega, fun _ => by omega⟩
    · rw [if_neg hg] at h
      cases h
      exact ⟨rfl, le_refl _, fun hg' => absurd hg' hg⟩

theorem windowLoop_terminates (c : Clock) (ws : Nat) (hpoll : 0 < c.poll) :
    ∀ (m : Nat) (st : Wifi5Simulator),
      ws + COMMUNICATION_WINDOW * c.ticksPerMs + 1 - st.now ≤ m →
      ∃ st' F, ∀ fuel, F ≤ fuel → windowLoop c ws fuel st = some st' := by
  intro m
  induction m with
  | zero =>
    intro st hm
    refine ⟨st, 1, fun fuel hf => ?_⟩
    obtain ⟨f, rfl⟩ : ∃ f, fuel = f + 1 := ⟨fuel - 1, by omega⟩
    rw [windowLoop_succ, if_neg (by omega)]
  | succ m ih =>
    intro st hm
    by_cases hg : st.now - ws ≤ COMMUNICATION_WINDOW * c.ticksPerMs
    · obtain ⟨_, _, p3⟩ := forTransmit_spec c ws st.users st
      obtain ⟨st', F, hF⟩ := ih
        { (forTransmit c ws st st.users).1 with
          users := (forTransmit c ws st st.users).2
          now := (forTransmit c ws st st.users).1.now + c.poll }
        (by simp only; omega)
      refine ⟨st', F + 1, fun fuel hf => ?_⟩
      obtain ⟨f, rfl⟩ : ∃ f, fuel = f + 1 := ⟨fuel - 1, by omega⟩
      rw [windowLoop_succ, if_pos hg]
      exact hF f (by omega)
    · refine ⟨st, 1, fun fuel hf => ?_⟩
      obtain ⟨f, rfl⟩ : ∃ f, fuel = f + 1 := ⟨fuel - 1, by omega⟩
      rw [windowLoop_succ, if_neg hg]

theorem atWindow_spec (c : Clock) (st : Wifi5Simulator) :
    (atWindow c st).1.users = st.users ∧ (atWindow c st).1.latencies = st.latencies ∧
    ((atWindow c st).2 = true ↔ pending st.users = 0) := by
  obtain ⟨h1, h2, h3⟩ := csiLoop_spec c (broadcast c st).users (broadcast c st) true
  refine ⟨h1, h2, ?_⟩
  rw [atWindow, h3, Bool.true_and]
  exact w5_all_idle_iff st.users

theorem simLoop_succ (c : Clock) (fuel : Nat) (st : Wifi5Simulator) :
    simLoop c (fuel + 1) st =
      match windowLoop c (atWindow c st).1.now fuel (atWindow c st).1 with
      | none => none
      | some st' => if (atWindow c st).2 then some st' else simLoop c fuel st' := by
  simp only [simLoop, round]
  cases windowLoop c (atWindow c st).1.now fuel (atWindow c st).1 <;> rfl

theorem w5_simLoop_sound (c : Clock) :
    ∀ (fuel : Nat) (st st' : Wifi5Simulator), simLoop c fuel st = some st' →
      st'.latencies.length = st.latencies.length + pending st.users ∧
      pending st'.users = 0 := by
  intro fuel
  induction fuel with
  | zero => intro st st' h; simp [simLoop] at h
  | succ f ih =>
    intro st st' h
    rw [simLoop_succ] at h
    obtain ⟨a1, a2, a3⟩ := atWindow_spec c st
    cases hw : windowLoop c (atWindow c st).1.now f (atWindow c st).1 with
    | none => simp [hw] at h
    | some s3 =>
      obtain ⟨w1, w2, w3⟩ := windowLoop_sound c _ f _ s3 hw
      rw [a1, a2] at w1
      rw [a1] at w2 w3
      simp only [hw] at h
      by_cases hd : (atWindow c st).2 = true
      · rw [if_pos hd] at h
        cases h
        have hz := a3.mp hd
        omega
      · rw [if_neg hd] at h
        obtain ⟨i1, i2⟩ := ih s3 st' h
        exact ⟨by omega, i2⟩

theorem w5_simLoop_terminates (c : Clock) (hpoll : 0 < c.poll) :
    ∀ (n : Nat) (st : Wifi5Simulator), pending st.users = n →
      ∃ st' F, ∀ fuel, F ≤ fuel → simLoop c fuel st = some st' := by
  intro n
  induction n using Nat.strong_induction_on with
  | _ n ih =>
    intro st hn
    obtain ⟨a1, a2, a3⟩ := atWindow_spec c st
    obtain ⟨s3, Fw, hFw⟩ := windowLoop_terminates c (atWindow c st).1.now hpoll _
      (atWindow c st).1 (le_refl _)
    by_cases hd : (atWindow c st).2 = true
    · refine ⟨s3, Fw + 1, fun fuel hf => ?_⟩
      obtain ⟨f, rfl⟩ : ∃ f, fuel = f + 1 := ⟨fuel - 1, by omega⟩
      rw [simLoop_succ, hFw f (by omega)]
      simp [hd]
    · obtain ⟨_, _, w3⟩ := windowLoop_sound c _ Fw _ s3 (hFw Fw (le_refl _))
      rw [a1] at w3
      have hk : 0 < st.users.countP User.hasPackets := by
        rcases Nat.eq_zero_or_pos (st.users.countP User.hasPackets) with hc | hc
        · exfalso
          apply hd
          rw [a3]
          have := w5_pending_pop st.users
          have hall : ∀ u ∈ st.users, u.packets = [] := by
            intro u hu
            have := (List.countP_eq_zero.mp hc) u hu
            cases hq : u.packets with
            | nil => rfl
            | cons p ps => simp [User.hasPackets, hq] at this
          exact (w5_pending_zero_iff st.users).mpr hall
        · exact hc
      have hlt : pending s3.users < n := by
        have := w3 (by simp)
        omega
      obtain ⟨st', F, hF⟩ := ih _ hlt s3 rfl
      refine ⟨st', max Fw F + 1, fun fuel hf => ?_⟩
      obtain ⟨f, rfl⟩ : ∃ f, fuel = f + 1 := ⟨fuel - 1, by omega⟩
      have h1 : Fw ≤ f := by have := le_max_left Fw F; omega
      have h2 : F ≤ f := by have := le_max_right Fw F; omega
      rw [simLoop_succ, hFw f h1]
      simp only [hd]
      exact hF f h2

end Wifi5

namespace Wifi5

theorem forTransmit_idle (c : Clock) (ws : Nat) :
    ∀ (us : List User) (st : Wifi5Simulator), pending us = 0 →
      forTransmit c ws st us = (st, us) := by
  intro us
  induction us with
  | nil => intro st _; rfl
  | cons u rest ih =>
    intro st h
    have hall := (w5_pending_zero_iff (u :: rest)).mp h
    have hu : u.hasPackets = false := by
      simp [User.hasPackets, hall u (List.mem_cons_self _ _)]
    have hrest : pending rest = 0 :=
      (w5_pending_zero_iff rest).mpr (fun v hv => hall v (List.mem_cons_of_mem _ hv))
    simp only [forTransmit, hu, Bool.false_eq_true, if_false, ih st hrest]

/-- On a clock that only sleeps advance, a window entered with no pending
packet is never left: the guard keeps reading the same time. -/
theorem windowLoop_spins (t ws : Nat) :
    ∀ (fuel : Nat) (st : Wifi5Simulator), pending st.users = 0 →
      st.now - ws ≤ COMMUNICATION_WINDOW * t →
      windowLoop (Clock.mk t 0) ws fuel st = none := by
  intro fuel
  induction fuel with
  | zero => intro st _ _; rfl
  | succ f ih =>
    intro st hp hg
    rw [windowLoop_succ, if_pos hg, forTransmit_idle _ _ _ _ hp]
    exact ih _ hp hg

/-- On a clock that only sleeps advance, `simulate` does not end, whatever the
scenario: the window of the round that finds every queue empty spins. -/
theorem simulate_spins (t : Nat) :
    ∀ (fuel : Nat) (st : Wifi5Simulator), simulate (Clock.mk t 0) fuel st = none := by
  have hloop : ∀ (fuel : Nat) (st : Wifi5Simulator), simLoop (Clock.mk t 0) fuel st = none := by
    intro fuel
    induction fuel with
    | zero => intro st; rfl
    | succ f ih =>
      intro st
      rw [simLoop_succ]
      obtain ⟨a1, _, a3⟩ := atWindow_spec (Clock.mk t 0) st
      cases hw : windowLoop (Clock.mk t 0) (atWindow (Clock.mk t 0) st).1.now f
          (atWindow (Clock.mk t 0) st).1 with
      | none => rfl
      | some s3 =>
        by_cases hd : (atWindow (Clock.mk t 0) st).2 = true
        · have hz : pending (atWindow (Clock.mk t 0) st).1.users = 0 := by
            rw [a1]; exact a3.mp hd
          have := windowLoop_spins t (atWindow (Clock.mk t 0) st).1.now f _ hz (by simp)
          rw [this] at hw
          cases hw
        · simp only [hd]
          exact ih s3
  intro fuel st
  simp [simulate, hloop fuel st]

end Wifi5

namespace Wifi5

/-- C2, at 100 users with one packet each on a clock that only sleeps advance
(one tick per millisecond): the window of the first round opens at tick 102,
all 100 packets are recorded and popped in that round, and 85 of them carry
an `end_time` after `window_start + COMMUNICATION_WINDOW`. -/
theorem window_boundary_not_enforced :
    (atWindow (Clock.mk 1 0) (Wifi5Simulator.init 100 1)).1.now = 102 ∧
    (round (Clock.mk 1 0) 2 (Wifi5Simulator.init 100 1)).map
      (fun r => (r.2, r.1.latencies.length, pending r.1.users,
        (r.1.delivered.filter
          (fun p => decide (102 + COMMUNICATION_WINDOW * 1 < p.end_time))).length)) =
      some (false, 100, 0, 85) :=
  ⟨by decide!, by decide!⟩

end Wifi5

/-! ## Empty scenarios -/

theorem calculateMetricsBody_nil (ps : Int) (elapsed : ℚ) :
    calculateMetricsBody ps [] elapsed = none := rfl

theorem Wifi6.simulate_idle (fuel : Nat) (N P scs : Int) (hN : 1 ≤ N) (hP : P ≤ 0)
    (hscs : scs ≠ 0) :
    ∃ s, Wifi6.simulate (fuel + 1) (Wifi6.Wifi6Simulator.init N P scs) = some (Wifi6.Run.ok s) ∧
      s.latencies = [] := by
  have hP0 : P.toNat = 0 := Int.toNat_eq_zero.mpr hP
  have hNpos : 0 < N.toNat := by omega
  have hne : (Wifi6.Wifi6Simulator.init N P scs).users ≠ [] := by
    have hlen : (Wifi6.Wifi6Simulator.init N P scs).users.length = N.toNat := by
      simp [Wifi6.Wifi6Simulator.init]
    intro h
    rw [h, List.length_nil] at hlen
    omega
  have hall : ∀ u ∈ (Wifi6.Wifi6Simulator.init N P scs).users, u.packets = [] := by
    intro u hu
    simp only [Wifi6.Wifi6Simulator.init, List.mem_map] at hu
    obtain ⟨i, _, rfl⟩ := hu
    simp [Wifi6.User.init, hP0]
  have hslots := Wifi6.forSlots_idle
    (List.range (Int.tdiv (Wifi6.Wifi6Simulator.init N P scs).total_bandwidth
      (Wifi6.Wifi6Simulator.init N P scs).sub_channel_size).toNat)
    (Wifi6.Wifi6Simulator.init N P scs) true hne hall
  have hscs' : (Wifi6.Wifi6Simulator.init N P scs).sub_channel_size ≠ 0 := hscs
  refine ⟨{ Wifi6.Wifi6Simulator.init N P scs with
      total_time := (Wifi6.Wifi6Simulator.init N P scs).clock -
        (Wifi6.Wifi6Simulator.init N P scs).clock }, ?_, rfl⟩
  simp only [Wifi6.simulate, if_neg hscs', Wifi6.simLoop, hslots, if_true]

/-- C7. With `packets_per_user ≤ 0` and `N ≥ 1` users, each of the three
simulators ends `simulate` with an empty latency list, and `calculateMetrics`
on the final state gives the "no packets transmitted" result (`none`), so no
figure is computed. For wifi5 the clock advances during the busy wait of the
window; for wifi6 the sub-channel size is not zero. -/
theorem no_packets_metrics_unavailable (draws : Nat → Nat) (c : Wifi5.Clock) (N B P scs : Int)
    (hN : 1 ≤ N) (hP : P ≤ 0) (hpoll : 0 < c.poll) (hscs : scs ≠ 0) :
    (∃ F, ∀ fuel, F ≤ fuel → ∃ s,
      Wifi4.simulate draws fuel (Wifi4.Wifi4Simulator.init N B P) = some s ∧
      s.latencies = [] ∧ Wifi4.calculateMetrics s = none) ∧
    (∃ F, ∀ fuel, F ≤ fuel → ∃ s,
      Wifi5.simulate c fuel (Wifi5.Wifi5Simulator.init N P) = some s ∧
      s.latencies = [] ∧ Wifi5.calculateMetrics c s = none) ∧
    (∀ fuel, 1 ≤ fuel → ∃ s,
      Wifi6.simulate fuel (Wifi6.Wifi6Simulator.init N P scs) = some (Wifi6.Run.ok s) ∧
      s.latencies = [] ∧ Wifi6.calculateMetrics s = none) := by
  have hP0 : P.toNat = 0 := Int.toNat_eq_zero.mpr hP
  refine ⟨?_, ?_, ?_⟩
  · obtain ⟨F, hF⟩ := Wifi4.simLoop_free draws _ (Wifi4.Wifi4Simulator.init N B P) rfl rfl
    refine ⟨F, fun fuel hf => ?_⟩
    obtain ⟨s, e1, e2, _, _, _⟩ := hF fuel hf
    rw [Wifi4.pending_init, hP0] at e2
    have hl : s.latencies = [] := List.length_eq_zero.mp (by simpa [Wifi4.Wifi4Simulator.init] using e2)
    refine ⟨{ s with total_time := s.clock - (Wifi4.Wifi4Simulator.init N B P).clock }, ?_, hl, ?_⟩
    · simp [Wifi4.simulate, e1]
    · simp [Wifi4.calculateMetrics, hl, calculateMetricsBody_nil]
  · obtain ⟨s, F, hF⟩ := Wifi5.w5_simLoop_terminates c hpoll _ (Wifi5.Wifi5Simulator.init N P) rfl
    obtain ⟨e1, _⟩ := Wifi5.w5_simLoop_sound c F _ s (hF F (le_refl _))
    rw [Wifi5.w5_pending_init, hP0] at e1
    have hl : s.latencies = [] := List.length_eq_zero.mp (by simpa [Wifi5.Wifi5Simulator.init] using e1)
    refine ⟨F, fun fuel hf => ⟨{ s with total_time := s.now - (Wifi5.Wifi5Simulator.init N P).now },
      ?_, hl, ?_⟩⟩
    · simp [Wifi5.simulate, hF fuel hf]
    · simp [Wifi5.calculateMetrics, hl, calculateMetricsBody_nil]
  · intro fuel hf
    obtain ⟨f, rfl⟩ : ∃ f, fuel = f + 1 := ⟨fuel - 1, by omega⟩
    obtain ⟨s, e1, hl⟩ := Wifi6.simulate_idle f N P scs hN hP hscs
    exact ⟨s, e1, hl, by simp [Wifi6.calculateMetrics, hl, calculateMetricsBody_nil]⟩

/-- C7 at one user with zero packets, sub-channel size 4, one tick per
millisecond and one tick per poll. -/
theorem no_packets_metrics_unavailable_witness :
    (1 : Int) ≤ 1 ∧ (0 : Int) ≤ 0 ∧ 0 < (Wifi5.Clock.mk 1 1).poll ∧ (4 : Int) ≠ 0 ∧
    ((∃ F, ∀ fuel, F ≤ fuel → ∃ s,
      Wifi4.simulate (fun _ => 0) fuel (Wifi4.Wifi4Simulator.init 1 50 0) = some s ∧
      s.latencies = [] ∧ Wifi4.calculateMetrics s = none) ∧
    (∃ F, ∀ fuel, F ≤ fuel → ∃ s,
      Wifi5.simulate (Wifi5.Clock.mk 1 1) fuel (Wifi5.Wifi5Simulator.init 1 0) = some s ∧
      s.latencies = [] ∧ Wifi5.calculateMetrics (Wifi5.Clock.mk 1 1) s = none) ∧
    (∀ fuel, 1 ≤ fuel → ∃ s,
      Wifi6.simulate fuel (Wifi6.Wifi6Simulator.init 1 0 4) = some (Wifi6.Run.ok s) ∧
      s.latencies = [] ∧ Wifi6.calculateMetrics s = none)) :=
  ⟨by decide, by decide, by decide, by decide,
    no_packets_metrics_unavailable (fun _ => 0) (Wifi5.Clock.mk 1 1) 1 50 0 4
      (by decide) (by decide) (by decide) (by decide)⟩

/-! ## Zero users -/

theorem Wifi6.slotStep_ok (st : Wifi6.Wifi6Simulator) (done : Bool) (i : Nat)
    (hne : st.users.length ≠ 0) :
    ∃ r, Wifi6.slotStep st done i = Wifi6.Run.ok r ∧ r.1.users.length = st.users.length := by
  have hlt : Wifi6.slotOwner i st.users.length < st.users.length :=
    Nat.mod_lt _ (Nat.pos_of_ne_zero hne)
  have hget : st.users[Wifi6.slotOwner i st.users.length]? =
      some (st.users[Wifi6.slotOwner i st.users.length]) := List.getElem?_eq_getElem hlt
  cases hq : (st.users[Wifi6.slotOwner i st.users.length]).packets with
  | nil =>
    exact ⟨(st, done), by simp [Wifi6.slotStep, hne, hget, Wifi6.User.hasPackets, hq], rfl⟩
  | cons p ps =>
    refine ⟨({ st with
        clock := st.clock + Wifi6.transmission_ms st.sub_channel_size
        latencies := st.latencies ++
          [st.clock + Wifi6.transmission_ms st.sub_channel_size - st.clock]
        users := st.users.set (Wifi6.slotOwner i st.users.length)
          { st.users[Wifi6.slotOwner i st.users.length] with packets := ps } }, false), ?_, ?_⟩
    · simp only [Wifi6.slotStep, if_neg hne, hget, Wifi6.User.hasPackets, hq,
        List.isEmpty_cons, Bool.not_false, if_true]
    · simp

theorem Wifi6.forSlots_ok :
    ∀ (slots : List Nat) (st : Wifi6.Wifi6Simulator) (done : Bool), st.users.length ≠ 0 →
      ∃ r, Wifi6.forSlots st done slots = Wifi6.Run.ok r ∧
        r.1.users.length = st.users.length := by
  intro slots
  induction slots with
  | nil => intro st done _; exact ⟨(st, done), rfl, rfl⟩
  | cons i rest ih =>
    intro st done hne
    obtain ⟨r, hr, hl⟩ := Wifi6.slotStep_ok st done i hne
    obtain ⟨q, hq, hl2⟩ := ih r.1 r.2 (by rw [hl]; exact hne)
    exact ⟨q, by simp only [Wifi6.forSlots, hr, hq], hl2.trans hl⟩

theorem Wifi6.simLoop_ok (n : Int) :
    ∀ (fuel : Nat) (st : Wifi6.Wifi6Simulator), st.users.length ≠ 0 →
      ∀ e, Wifi6.simLoop n fuel st ≠ some (Wifi6.Run.error e) := by
  intro fuel
  induction fuel with
  | zero => intro st _ e h; simp [Wifi6.simLoop] at h
  | succ f ih =>
    intro st hne e h
    obtain ⟨r, hr, hl⟩ := Wifi6.forSlots_ok (List.range n.toNat) st true hne
    simp only [Wifi6.simLoop, hr] at h
    by_cases hd : r.2 = true
    · simp [hd] at h
    · simp only [hd, Bool.false_eq_true, if_false] at h
      exact ih r.1 (by rw [hl]; exact hne) e h

/-- C6 as amended. With zero users `Wifi4Simulator::simulate` and, on a clock
that advances during the busy wait, `Wifi5Simulator::simulate` return with no
latency recorded, and their `calculateMetrics` gives the "no packets
transmitted" result; and `Wifi6Simulator::simulate` with at least one user and
a non-zero sub-channel size never leaves defined behaviour, in particular not
at the slot owner `i % users.size()`. -/
theorem zero_users_handled (draws : Nat → Nat) (c : Wifi5.Clock) (B P N scs : Int)
    (hpoll : 0 < c.poll) (hN : 1 ≤ N) (hscs : scs ≠ 0) :
    (∃ F, ∀ fuel, F ≤ fuel → ∃ s,
      Wifi4.simulate draws fuel (Wifi4.Wifi4Simulator.init 0 B P) = some s ∧
      s.latencies = [] ∧ Wifi4.calculateMetrics s = none) ∧
    (∃ F, ∀ fuel, F ≤ fuel → ∃ s,
      Wifi5.simulate c fuel (Wifi5.Wifi5Simulator.init 0 P) = some s ∧
      s.latencies = [] ∧ Wifi5.calculateMetrics c s = none) ∧
    (∀ fuel e, Wifi6.simulate fuel (Wifi6.Wifi6Simulator.init N P scs) ≠
      some (Wifi6.Run.error e)) := by
  refine ⟨?_, ?_, ?_⟩
  · obtain ⟨F, hF⟩ := Wifi4.simLoop_free draws _ (Wifi4.Wifi4Simulator.init 0 B P) rfl rfl
    refine ⟨F, fun fuel hf => ?_⟩
    obtain ⟨s, e1, e2, _, _, _⟩ := hF fuel hf
    rw [Wifi4.pending_init] at e2
    have hl : s.latencies = [] :=
      List.length_eq_zero.mp (by simpa [Wifi4.Wifi4Simulator.init] using e2)
    refine ⟨{ s with total_time := s.clock - (Wifi4.Wifi4Simulator.init 0 B P).clock }, ?_, hl, ?_⟩
    · simp [Wifi4.simulate, e1]
    · simp [Wifi4.calculateMetrics, hl, calculateMetricsBody_nil]
  · obtain ⟨s, F, hF⟩ := Wifi5.w5_simLoop_terminates c hpoll _ (Wifi5.Wifi5Simulator.init 0 P) rfl
    obtain ⟨e1, _⟩ := Wifi5.w5_simLoop_sound c F _ s (hF F (le_refl _))
    rw [Wifi5.w5_pending_init] at e1
    have hl : s.latencies = [] :=
      List.length_eq_zero.mp (by simpa [Wifi5.Wifi5Simulator.init] using e1)
    refine ⟨F, fun fuel hf => ⟨{ s with total_time := s.now - (Wifi5.Wifi5Simulator.init 0 P).now },
      ?_, hl, ?_⟩⟩
    · simp [Wifi5.simulate, hF fuel hf]
    · simp [Wifi5.calculateMetrics, hl, calculateMetricsBody_nil]
  · intro fuel e h
    have hlen : (Wifi6.Wifi6Simulator.init N P scs).users.length ≠ 0 := by
      have : (Wifi6.Wifi6Simulator.init N P scs).users.length = N.toNat := by
        simp [Wifi6.Wifi6Simulator.init]
      omega
    have hscs' : (Wifi6.Wifi6Simulator.init N P scs).sub_channel_size ≠ 0 := hscs
    simp only [Wifi6.simulate, if_neg hscs'] at h
    cases hs : Wifi6.simLoop (Int.tdiv (Wifi6.Wifi6Simulator.init N P scs).total_bandwidth
        (Wifi6.Wifi6Simulator.init N P scs).sub_channel_size) fuel
        (Wifi6.Wifi6Simulator.init N P scs) with
    | none => simp [hs] at h
    | some r =>
      cases r with
      | ok s => simp [hs] at h
      | error e2 => exact Wifi6.simLoop_ok _ fuel _ hlen e2 hs

/-- C6 as amended, at one tick per millisecond and per poll, one packet per
user, and one user with sub-channel size 4 for wifi6. -/
theorem zero_users_handled_witness :
    0 < (Wifi5.Clock.mk 1 1).poll ∧ (1 : Int) ≤ 1 ∧ (4 : Int) ≠ 0 ∧
    ((∃ F, ∀ fuel, F ≤ fuel → ∃ s,
      Wifi4.simulate (fun _ => 0) fuel (Wifi4.Wifi4Simulator.init 0 50 1) = some s ∧
      s.latencies = [] ∧ Wifi4.calculateMetrics s = none) ∧
    (∃ F, ∀ fuel, F ≤ fuel → ∃ s,
      Wifi5.simulate (Wifi5.Clock.mk 1 1) fuel (Wifi5.Wifi5Simulator.init 0 1) = some s ∧
      s.latencies = [] ∧ Wifi5.calculateMetrics (Wifi5.Clock.mk 1 1) s = none) ∧
    (∀ fuel e, Wifi6.simulate fuel (Wifi6.Wifi6Simulator.init 1 1 4) ≠
      some (Wifi6.Run.error e))) :=
  ⟨by decide, by decide, by decide,
    zero_users_handled (fun _ => 0) (Wifi5.Clock.mk 1 1) 50 1 1 4
      (by decide) (by decide) (by decide)⟩
